import Mathlib

/-!
Verification of the grid-splitter core of the node-banana repository.

The source under scrutiny is the grid splitter utility: it detects a
regular grid of sub-images inside a "contact sheet" image and splits the
image into one sub-image per detected cell.  The embedding below models
pixel data exactly as the source reads it (per-channel values, simple RGB
averaging) with rational arithmetic in place of JavaScript floats, and
integer cell coordinates as produced by Math.round.  Image decoding and
PNG encoding are external collaborators and are modelled by working
directly on decoded pixel buffers.
-/

namespace GridSplitter

/-- JavaScript's Math.round: round half toward positive infinity. -/
def jsRound (q : ℚ) : ℤ := ⌊q + 1/2⌋

/-- A cell rectangle, from the source's GridCell interface. -/
structure GridCell where
  x : ℤ
  y : ℤ
  width : ℤ
  height : ℤ
  deriving DecidableEq, Repr, Inhabited

/-- Result of a grid detection, from the source's GridDetectionResult
interface.  The confidence of the geometric detector is a real-valued
combined score, so `confidence` lives in the reals. -/
structure GridDetectionResult where
  rows : ℕ
  cols : ℕ
  cells : List GridCell
  confidence : ℝ

/-- A scored grid hypothesis, from the source's GridCandidate interface. -/
structure GridCandidate where
  rows : ℕ
  cols : ℕ
  cellWidth : ℚ
  cellHeight : ℚ
  cellAspectRatio : ℚ
  score : ℝ
  deriving Inhabited

/-- A decoded raster image: dimensions plus per-channel pixel access
(the source reads R, G and B from an RGBA buffer; alpha is ignored by
every algorithm in this core). -/
structure PixelImage where
  width : ℕ
  height : ℕ
  red : ℕ → ℕ → ℚ
  green : ℕ → ℕ → ℚ
  blue : ℕ → ℕ → ℚ

/-- The cell the regular partition produces at position (row, col). -/
def gridCellAt (width height rows cols row col : ℕ) : GridCell :=
  { x := jsRound ((col : ℚ) * ((width : ℚ) / (cols : ℚ)))
    y := jsRound ((row : ℚ) * ((height : ℚ) / (rows : ℚ)))
    width := jsRound ((width : ℚ) / (cols : ℚ))
    height := jsRound ((height : ℚ) / (rows : ℚ)) }

/-- The source's createGridForDimensions: a regular rows × cols partition,
cells listed row-major, confidence fixed at 1. -/
def createGridForDimensions (width height rows cols : ℕ) : GridDetectionResult :=
  { rows := rows
    cols := cols
    cells := (List.range rows).flatMap fun row =>
      (List.range cols).map fun col => gridCellAt width height rows cols row col
    confidence := 1 }

/-- Row-major double loops over ranges flatten to a single range. -/
theorem flatMap_range_map_range {α : Type} (f : ℕ → ℕ → α) (rows cols : ℕ) :
    ((List.range rows).flatMap fun row => (List.range cols).map fun col => f row col) =
      (List.range (rows * cols)).map fun i => f (i / cols) (i % cols) := by
  induction rows with
  | zero => simp
  | succ r ih =>
      rw [List.range_succ, List.flatMap_append, ih, Nat.succ_mul, List.range_add,
        List.map_append, List.map_map]
      congr 1
      simp only [List.flatMap_cons, List.flatMap_nil, List.append_nil]
      refine List.map_congr_left ?_
      intro j hj
      have hj' : j < cols := List.mem_range.mp hj
      have hc : 0 < cols := Nat.pos_of_ne_zero (by omega)
      have hdiv : (r * cols + j) / cols = r := by
        rw [Nat.add_comm, Nat.mul_comm, Nat.add_mul_div_left _ _ hc,
          Nat.div_eq_of_lt hj']
        omega
      have hmod : (r * cols + j) % cols = j := by
        rw [Nat.add_comm, Nat.mul_comm, Nat.add_mul_mod_self_left, Nat.mod_eq_of_lt hj']
      simp [Function.comp, hdiv, hmod]

/-- The cells of the regular partition, as a single indexed map. -/
theorem createGridForDimensions_cells (width height rows cols : ℕ) :
    (createGridForDimensions width height rows cols).cells =
      (List.range (rows * cols)).map fun i =>
        gridCellAt width height rows cols (i / cols) (i % cols) :=
  flatMap_range_map_range _ rows cols

/-- Membership in the regular partition's cell list. -/
theorem mem_createGridForDimensions_cells {width height rows cols : ℕ} {c : GridCell} :
    c ∈ (createGridForDimensions width height rows cols).cells ↔
      ∃ row < rows, ∃ col < cols, c = gridCellAt width height rows cols row col := by
  constructor
  · intro hc
    rw [createGridForDimensions] at hc
    simp only [List.mem_flatMap, List.mem_map, List.mem_range] at hc
    obtain ⟨row, hrow, col, hcol, rfl⟩ := hc
    exact ⟨row, hrow, col, hcol, rfl⟩
  · rintro ⟨row, hrow, col, hcol, rfl⟩
    rw [createGridForDimensions]
    simp only [List.mem_flatMap, List.mem_map, List.mem_range]
    exact ⟨row, hrow, col, hcol, rfl⟩

theorem jsRound_le (q : ℚ) : (jsRound q : ℚ) ≤ q + 1/2 :=
  Int.floor_le _

theorem jsRound_gt (q : ℚ) : q - 1/2 < (jsRound q : ℚ) := by
  have := Int.lt_floor_add_one (q + 1/2)
  rw [jsRound]
  push_cast at this ⊢
  linarith

theorem jsRound_nonneg {q : ℚ} (h : 0 ≤ q) : 0 ≤ jsRound q :=
  Int.floor_nonneg.mpr (by linarith)

theorem jsRound_pos {q : ℚ} (h : 1/2 ≤ q) : 0 < jsRound q := by
  have : (1 : ℤ) ≤ jsRound q := Int.le_floor.mpr (by push_cast; linarith)
  omega

theorem jsRound_natCast (p : ℕ) : jsRound (p : ℚ) = p := by
  rw [jsRound]
  have : ((p : ℚ) + 1/2) = 1/2 + (p : ℤ) := by push_cast; ring
  rw [this, Int.floor_add_int]
  norm_num

/-- Mean brightness of one pixel, as read by the source: (R + G + B) / 3. -/
def brightness (img : PixelImage) (x y : ℕ) : ℚ :=
  (img.red x y + img.green x y + img.blue x y) / 3

/-- Projection profile along a column: sum of brightness over all rows. -/
def colSum (img : PixelImage) (x : ℕ) : ℚ :=
  ((List.range img.height).map fun y => brightness img x y).sum

/-- Projection profile along a row: sum of brightness over all columns. -/
def rowSum (img : PixelImage) (y : ℕ) : ℚ :=
  ((List.range img.width).map fun x => brightness img x y).sum

/-- The source's isColumnGap closure: average column brightness below 30. -/
def isColumnGap (img : PixelImage) (x : ℕ) : Prop :=
  colSum img x / (img.height : ℚ) < 30

/-- The source's isRowGap closure: average row brightness below 30. -/
def isRowGap (img : PixelImage) (y : ℕ) : Prop :=
  rowSum img y / (img.width : ℚ) < 30

instance (img : PixelImage) : DecidablePred (isColumnGap img) := fun x =>
  inferInstanceAs (Decidable (colSum img x / (img.height : ℚ) < 30))

instance (img : PixelImage) : DecidablePred (isRowGap img) := fun y =>
  inferInstanceAs (Decidable (rowSum img y / (img.width : ℚ) < 30))

/-- A maximal run of content positions along one axis.  The source stores
{start, end, size}; the field named end is called stop here because end
is a Lean keyword. -/
structure Interval where
  start : ℕ
  stop : ℕ
  size : ℕ
  deriving DecidableEq, Repr, Inhabited

/-- One step of the source's findIntervals scan loop: the state is the
optional start of the content run currently open, plus the runs already
closed. -/
def intervalStep (isGap : ℕ → Prop) [DecidablePred isGap]
    (st : Option ℕ × List Interval) (i : ℕ) : Option ℕ × List Interval :=
  match st with
  | (some s, acc) =>
      if isGap i then (none, acc ++ [{ start := s, stop := i - 1, size := i - s }])
      else (some s, acc)
  | (none, acc) =>
      if isGap i then (none, acc) else (some i, acc)

/-- The scan over positions 0, ..., n-1. -/
def intervalScan (isGap : ℕ → Prop) [DecidablePred isGap] (n : ℕ) :
    Option ℕ × List Interval :=
  (List.range n).foldl (intervalStep isGap) (none, [])

/-- After the loop, a run still open is closed at the end of the axis. -/
def finishIntervals (length : ℕ) : Option ℕ × List Interval → List Interval
  | (some s, acc) => acc ++ [{ start := s, stop := length - 1, size := length - s }]
  | (none, acc) => acc

/-- The source's findIntervals: maximal runs of non-gap positions, keeping
only those whose size exceeds 5% of the axis length. -/
def findIntervals (length : ℕ) (isGap : ℕ → Prop) [DecidablePred isGap] :
    List Interval :=
  (finishIntervals length (intervalScan isGap length)).filter fun iv =>
    (iv.size : ℚ) > (length : ℚ) * 0.05

/-- Retained content intervals along the x axis. -/
def gutterColIntervals (img : PixelImage) : List Interval :=
  findIntervals img.width (isColumnGap img)

/-- Retained content intervals along the y axis. -/
def gutterRowIntervals (img : PixelImage) : List Interval :=
  findIntervals img.height (isRowGap img)

/-- Step 3 of the gutter detector: the row-major cross-product of row
intervals and column intervals. -/
def gutterRawCells (img : PixelImage) : List GridCell :=
  (gutterRowIntervals img).flatMap fun rowIv =>
    (gutterColIntervals img).map fun colIv =>
      { x := (colIv.start : ℤ), y := (rowIv.start : ℤ),
        width := (colIv.size : ℤ), height := (rowIv.size : ℤ) }

/-- The cell areas sorted ascending, as the source's areas.sort((a,b) => a-b). -/
def gutterSortedAreas (img : PixelImage) : List ℤ :=
  ((gutterRawCells img).map fun c => c.width * c.height).mergeSort fun a b => a ≤ b

/-- The median area: element at index floor(n/2) of the ascending sort. -/
def gutterMedianArea (img : PixelImage) : ℤ :=
  (gutterSortedAreas img).getD ((gutterSortedAreas img).length / 2) 0

/-- Step 4 of the gutter detector: keep only cells whose area strictly
exceeds half the median area. -/
def gutterValidCells (img : PixelImage) : List GridCell :=
  (gutterRawCells img).filter fun c =>
    ((c.width * c.height : ℤ) : ℚ) > (gutterMedianArea img : ℚ) * 0.5

/-- The source's detectGridWithGutters, from the decoded pixel buffer on:
fails when either axis retains no interval, otherwise returns the filtered
cross-product with pre-filter interval counts and confidence 0.95. -/
noncomputable def detectGridWithGutters (img : PixelImage) :
    Option GridDetectionResult :=
  if (gutterRowIntervals img).length = 0 ∨ (gutterColIntervals img).length = 0 then
    none
  else
    some { rows := (gutterRowIntervals img).length
           cols := (gutterColIntervals img).length
           cells := gutterValidCells img
           confidence := 0.95 }

theorem intervalScan_succ (isGap : ℕ → Prop) [DecidablePred isGap] (n : ℕ) :
    intervalScan isGap (n + 1) = intervalStep isGap (intervalScan isGap n) n := by
  unfold intervalScan
  rw [List.range_succ, List.foldl_append]
  rfl

/-- Invariant of the interval scan: an open run started strictly before the
current position, and every closed run lies inside the scanned prefix and
has positive size. -/
theorem intervalScan_inv (isGap : ℕ → Prop) [DecidablePred isGap] (n : ℕ) :
    (∀ s, (intervalScan isGap n).1 = some s → s < n) ∧
      (∀ iv ∈ (intervalScan isGap n).2, iv.start + iv.size ≤ n ∧ 1 ≤ iv.size) := by
  induction n with
  | zero =>
      constructor
      · intro s hs
        simp [intervalScan] at hs
      · intro iv hiv
        simp [intervalScan] at hiv
  | succ n ih =>
      obtain ⟨ih1, ih2⟩ := ih
      rw [intervalScan_succ]
      rcases hscan : intervalScan isGap n with ⟨st, acc⟩
      rw [hscan] at ih1 ih2
      rcases st with _ | s
      · by_cases hg : isGap n
        · rw [intervalStep, if_pos hg]
          exact ⟨fun s hs => by simp at hs,
            fun iv hiv => ⟨(ih2 iv hiv).1.trans (by omega), (ih2 iv hiv).2⟩⟩
        · rw [intervalStep, if_neg hg]
          refine ⟨fun s hs => ?_, fun iv hiv => ⟨(ih2 iv hiv).1.trans (by omega), (ih2 iv hiv).2⟩⟩
          simp only [Option.some.injEq] at hs
          omega
      · have hsn : s < n := ih1 s rfl
        by_cases hg : isGap n
        · rw [intervalStep, if_pos hg]
          refine ⟨fun s' hs' => by simp at hs', fun iv hiv => ?_⟩
          rcases List.mem_append.mp hiv with h | h
          · exact ⟨(ih2 iv h).1.trans (by omega), (ih2 iv h).2⟩
          · rw [List.mem_singleton] at h
            subst h
            constructor <;> simp <;> omega
        · rw [intervalStep, if_neg hg]
          refine ⟨fun s' hs' => ?_, fun iv hiv => ⟨(ih2 iv hiv).1.trans (by omega), (ih2 iv hiv).2⟩⟩
          simp only [Option.some.injEq] at hs'
          omega

/-- Every retained interval fits inside the axis, has positive size, and
passed the 5% noise filter. -/
theorem findIntervals_bounds (length : ℕ) (isGap : ℕ → Prop) [DecidablePred isGap] :
    ∀ iv ∈ findIntervals length isGap,
      iv.start + iv.size ≤ length ∧ 1 ≤ iv.size ∧
        (iv.size : ℚ) > (length : ℚ) * 0.05 := by
  intro iv hiv
  rw [findIntervals, List.mem_filter] at hiv
  obtain ⟨hmem, hfil⟩ := hiv
  have hfil' : (iv.size : ℚ) > (length : ℚ) * 0.05 := of_decide_eq_true hfil
  have hinv := intervalScan_inv isGap length
  rcases hscan : intervalScan isGap length with ⟨st, acc⟩
  rw [hscan] at hinv hmem
  obtain ⟨h1, h2⟩ := hinv
  rcases st with _ | s
  · rw [finishIntervals] at hmem
    exact ⟨(h2 iv hmem).1, (h2 iv hmem).2, hfil'⟩
  · have hs : s < length := h1 s rfl
    rw [finishIntervals] at hmem
    rcases List.mem_append.mp hmem with h | h
    · exact ⟨(h2 iv h).1, (h2 iv h).2, hfil'⟩
    · rw [List.mem_singleton] at h
      subst h
      refine ⟨by simp; omega, by simp; omega, hfil'⟩

/-- The source's COMMON_ASPECT_RATIOS list: 16:9, 4:3, 3:2, 1.85, 2.39,
1:1, and the portrait reciprocals 9:16, 3:4, 2:3.  All entries are exact
rationals. -/
def COMMON_ASPECT_RATIOS : List ℚ :=
  [16/9, 4/3, 3/2, 1.85, 2.39, 1, 9/16, 3/4, 2/3]

/-- The symmetric distances computed inside the source's aspectRatioScore
loop: larger ratio over smaller, minus one. -/
def aspectDistances (r : ℚ) : List ℚ :=
  COMMON_ASPECT_RATIOS.map fun c => (if c < r then r / c else c / r) - 1

/-- The source's aspectRatioScore: exp(-bestMatch * 3) for the least
distance.  The source starts its fold at Infinity; over the non-empty
constant list this is the list minimum, and the unreachable empty case
maps to exp(-Infinity) = 0. -/
noncomputable def aspectRatioScore (r : ℚ) : ℝ :=
  match (aspectDistances r).min? with
  | some bestMatch => Real.exp (-(bestMatch : ℝ) * 3)
  | none => 0

/-- The source's layoutRatio: symmetric comparison of the image aspect
ratio with the grid's cols/rows aspect ratio. -/
def layoutRatio (width height : ℚ) (rows cols : ℕ) : ℚ :=
  if (cols : ℚ) / (rows : ℚ) < width / height then
    (width / height) / ((cols : ℚ) / (rows : ℚ))
  else ((cols : ℚ) / (rows : ℚ)) / (width / height)

/-- The source's layoutScore: exp(-(layoutRatio - 1) * 2). -/
noncomputable def layoutScore (width height : ℚ) (rows cols : ℕ) : ℝ :=
  Real.exp (-((layoutRatio width height rows cols : ℝ) - 1) * 2)

/-- The source's cellCountScore: 1 for at most 6 cells, exponential decay
above. -/
noncomputable def cellCountScore (rows cols : ℕ) : ℝ :=
  if rows * cols ≤ 6 then 1 else Real.exp (-((rows * cols : ℕ) - 6 : ℝ) * 0.15)

/-- The source's gridSymmetry: 1 - |rows - cols| / max(rows, cols). -/
def gridSymmetry (rows cols : ℕ) : ℚ :=
  1 - |(rows : ℚ) - (cols : ℚ)| / max (rows : ℚ) (cols : ℚ)

/-- One candidate as built inside the source's getGridCandidates loop. -/
noncomputable def candidateFor (width height : ℚ) (rows cols : ℕ) : GridCandidate :=
  { rows := rows
    cols := cols
    cellWidth := width / (cols : ℚ)
    cellHeight := height / (rows : ℚ)
    cellAspectRatio := (width / (cols : ℚ)) / (height / (rows : ℚ))
    score := aspectRatioScore ((width / (cols : ℚ)) / (height / (rows : ℚ))) * 0.55 +
      layoutScore width height rows cols * 0.25 +
      cellCountScore rows cols * 0.10 + (gridSymmetry rows cols : ℝ) * 0.10 }

/-- The (rows, cols) pairs the source's nested loops enumerate: rows and
cols from 1 to 6 in row-major order, skipping (1, 1). -/
def candidatePairs : List (ℕ × ℕ) :=
  (((List.range 6).flatMap fun ri => (List.range 6).map fun ci => (ri + 1, ci + 1)).filter
    fun p => ¬(p.1 = 1 ∧ p.2 = 1))

/-- The source's getGridCandidates: all candidates, sorted descending by
score (the comparator (a, b) => b.score - a.score). -/
noncomputable def getGridCandidates (width height : ℚ) : List GridCandidate :=
  (candidatePairs.map fun p => candidateFor width height p.1 p.2).mergeSort
    fun a b => b.score ≤ a.score

/-- The source's calculateVerticalEdgeProfile: for each interior column,
the mean over rows of the mean absolute RGB difference between the right
and left neighbours; boundary columns stay 0. -/
def calculateVerticalEdgeProfile (img : PixelImage) : List ℚ :=
  (List.range img.width).map fun x =>
    if 1 ≤ x ∧ x + 1 < img.width then
      (((List.range img.height).map fun y =>
        (|img.red (x + 1) y - img.red (x - 1) y| +
          |img.green (x + 1) y - img.green (x - 1) y| +
          |img.blue (x + 1) y - img.blue (x - 1) y|) / 3).sum) / (img.height : ℚ)
    else 0

/-- The source's calculateHorizontalEdgeProfile, symmetric along rows. -/
def calculateHorizontalEdgeProfile (img : PixelImage) : List ℚ :=
  (List.range img.height).map fun y =>
    if 1 ≤ y ∧ y + 1 < img.height then
      (((List.range img.width).map fun x =>
        (|img.red x (y + 1) - img.red x (y - 1)| +
          |img.green x (y + 1) - img.green x (y - 1)| +
          |img.blue x (y + 1) - img.blue x (y - 1)|) / 3).sum) / (img.width : ℚ)
    else 0

/-- The source's searchWindow: max(3, floor(min(cellWidth, cellHeight) * 0.03)). -/
def searchWindowFor (rows cols width height : ℕ) : ℕ :=
  max 3 (Int.toNat ⌊min ((width : ℚ) / (cols : ℚ)) ((height : ℚ) / (rows : ℚ)) * 0.03⌋)

/-- The inner window scan of scoreGridByEdges: the maximum profile value
within the window around the expected position, over valid interior
positions only. -/
def maxStrengthAt (profile : List ℚ) (axisLen : ℕ) (expectedPos : ℤ) (window : ℕ) : ℚ :=
  (List.range (2 * window + 1)).foldl
    (fun m k =>
      let pos : ℤ := expectedPos + (k : ℤ) - (window : ℤ)
      if 0 < pos ∧ pos < (axisLen : ℤ) - 1 then max m (profile.getD pos.toNat 0) else m)
    0

/-- The capped baseline-relative ratios collected for one axis of
scoreGridByEdges: one entry per internal division point. -/
def axisRatios (profile : List ℚ) (baseline : ℚ) (axisLen parts window : ℕ) : List ℚ :=
  (List.range (parts - 1)).map fun j =>
    let expectedPos := jsRound (((j + 1 : ℕ) : ℚ) * ((axisLen : ℚ) / (parts : ℚ)))
    let maxStrength := maxStrengthAt profile axisLen expectedPos window
    min (if 0 < baseline then maxStrength / baseline else 1) 3

/-- The source's scoreGridByEdges. -/
def scoreGridByEdges (rows cols width height : ℕ)
    (verticalProfile horizontalProfile : List ℚ) : ℚ :=
  let verticalBaseline := verticalProfile.sum / (verticalProfile.length : ℚ)
  let horizontalBaseline := horizontalProfile.sum / (horizontalProfile.length : ℚ)
  let window := searchWindowFor rows cols width height
  let vRatios := axisRatios verticalProfile verticalBaseline width cols window
  let hRatios := axisRatios horizontalProfile horizontalBaseline height rows window
  let divisions := vRatios.length + hRatios.length
  if divisions = 0 then 0
  else min (((vRatios.sum + hRatios.sum) / (divisions : ℚ) - 1) / 2) 1

/-- The source's analyzeGridFromImageData: rank candidates, rescore the top
8 with the edge profiles at combined weight 0.8/0.2, and emit the regular
partition for the winner with the combined score as confidence.  The
running best starts at -Infinity in the source, encoded here as none; the
candidate list always has 35 entries, so the fold always produces a score
and the getD default is never used. -/
noncomputable def analyzeGridFromImageData (img : PixelImage) : GridDetectionResult :=
  let candidates := getGridCandidates (img.width : ℚ) (img.height : ℚ)
  let verticalEdgeStrength := calculateVerticalEdgeProfile img
  let horizontalEdgeStrength := calculateHorizontalEdgeProfile img
  let best := (candidates.take 8).foldl
    (fun acc candidate =>
      let edgeScore := scoreGridByEdges candidate.rows candidate.cols img.width img.height
        verticalEdgeStrength horizontalEdgeStrength
      let combinedScore : ℝ := candidate.score * 0.8 + (edgeScore : ℝ) * 0.2
      match acc.2 with
      | some s => if s < combinedScore then (candidate, some combinedScore) else acc
      | none => (candidate, some combinedScore))
    (candidates.headI, none)
  let result := createGridForDimensions img.width img.height best.1.rows best.1.cols
  { result with confidence := best.2.getD result.confidence }

/-- The source's detectGrid, from the decoded pixel buffer on. -/
noncomputable def detectGrid (img : PixelImage) : GridDetectionResult :=
  analyzeGridFromImageData img

/-- One cropped sub-image, as the source's canvas drawImage call extracts
it: the cell-sized rectangle anchored at the cell's origin. -/
def cropCell (img : PixelImage) (cell : GridCell) : PixelImage :=
  { width := cell.width.toNat
    height := cell.height.toNat
    red := fun x y => img.red (cell.x.toNat + x) (cell.y.toNat + y)
    green := fun x y => img.green (cell.x.toNat + x) (cell.y.toNat + y)
    blue := fun x y => img.blue (cell.x.toNat + x) (cell.y.toNat + y) }

/-- The source's splitImage: one cropped output per cell, in cell order
(encoding to PNG is an external collaborator). -/
def splitImage (img : PixelImage) (grid : GridDetectionResult) : List PixelImage :=
  grid.cells.map (cropCell img)

/-- The source's detectAndSplitGrid: try the gutter detector, fall back to
the geometric detector when it fails or finds fewer than 2 cells, then
split. -/
noncomputable def detectAndSplitGrid (img : PixelImage) :
    GridDetectionResult × List PixelImage :=
  let grid := match detectGridWithGutters img with
    | some g => if g.cells.length < 2 then detectGrid img else g
    | none => detectGrid img
  (grid, splitImage img grid)

/-- Rounded cell start plus rounded cell size overshoots the axis length by
at most one pixel. -/
theorem regular_cell_bound (L parts k : ℕ) (hL : 1 ≤ L) (hp : 1 ≤ parts) (hk : k < parts) :
    jsRound ((k : ℚ) * ((L : ℚ) / (parts : ℚ))) + jsRound ((L : ℚ) / (parts : ℚ)) ≤
      (L : ℤ) + 1 := by
  have hpq : (0 : ℚ) < (parts : ℚ) := by exact_mod_cast hp
  have h1 := jsRound_le ((k : ℚ) * ((L : ℚ) / (parts : ℚ)))
  have h2 := jsRound_le ((L : ℚ) / (parts : ℚ))
  have hcw : (0 : ℚ) ≤ (L : ℚ) / (parts : ℚ) := by positivity
  have hk1 : ((k : ℚ) + 1) ≤ (parts : ℚ) := by exact_mod_cast hk
  have hmul := mul_le_mul_of_nonneg_right hk1 hcw
  have hcancel : (parts : ℚ) * ((L : ℚ) / (parts : ℚ)) = (L : ℚ) :=
    mul_div_cancel₀ _ (ne_of_gt hpq)
  have hsum : (k : ℚ) * ((L : ℚ) / (parts : ℚ)) + (L : ℚ) / (parts : ℚ) ≤ (L : ℚ) := by
    rw [hcancel] at hmul
    linarith [hmul]
  have hfin : ((jsRound ((k : ℚ) * ((L : ℚ) / (parts : ℚ))) +
      jsRound ((L : ℚ) / (parts : ℚ)) : ℤ) : ℚ) ≤ (L : ℚ) + 1 := by
    push_cast
    linarith
  exact_mod_cast hfin

/-- Every pixel position on an axis falls inside (up to the rounded right
edge) the cell the exact division would assign it to. -/
theorem axis_cover (L parts p : ℕ) (hL : 1 ≤ L) (hp : 1 ≤ parts) (hpL : p < L) :
    ∃ k < parts, jsRound ((k : ℚ) * ((L : ℚ) / (parts : ℚ))) ≤ (p : ℤ) ∧
      (p : ℤ) ≤ jsRound ((k : ℚ) * ((L : ℚ) / (parts : ℚ))) +
        jsRound ((L : ℚ) / (parts : ℚ)) := by
  have hL0 : 0 < L := hL
  have hpts0 : 0 < parts := hp
  have hpq : (0 : ℚ) < (parts : ℚ) := by exact_mod_cast hpts0
  refine ⟨p * parts / L, ?_, ?_, ?_⟩
  · rw [Nat.div_lt_iff_lt_mul hL0]
    calc p * parts < L * parts := by
          exact mul_lt_mul_of_pos_right hpL hpts0
    _ = parts * L := Nat.mul_comm _ _
  · have hkL : (p * parts / L) * L ≤ p * parts := Nat.div_mul_le_self _ _
    have hub : ((p * parts / L : ℕ) : ℚ) * ((L : ℚ) / (parts : ℚ)) ≤ (p : ℚ) := by
      rw [mul_div_assoc', div_le_iff₀ hpq]
      exact_mod_cast hkL
    have hmono : jsRound (((p * parts / L : ℕ) : ℚ) * ((L : ℚ) / (parts : ℚ))) ≤
        jsRound ((p : ℕ) : ℚ) := by
      rw [jsRound, jsRound]
      exact Int.floor_mono (by linarith)
    rw [jsRound_natCast] at hmono
    exact hmono
  · have hmod := Nat.div_add_mod (p * parts) L
    have hmlt : p * parts % L < L := Nat.mod_lt _ hL0
    have hlt : p * parts < (p * parts / L + 1) * L := by
      calc p * parts = L * (p * parts / L) + p * parts % L := hmod.symm
      _ < L * (p * parts / L) + L := by omega
      _ = (p * parts / L + 1) * L := by ring
    have hq : (p : ℚ) < (((p * parts / L : ℕ) : ℚ) + 1) * ((L : ℚ) / (parts : ℚ)) := by
      rw [mul_div_assoc', lt_div_iff₀ hpq]
      exact_mod_cast hlt
    rw [add_mul, one_mul] at hq
    have g1 := jsRound_gt (((p * parts / L : ℕ) : ℚ) * ((L : ℚ) / (parts : ℚ)))
    have g2 := jsRound_gt ((L : ℚ) / (parts : ℚ))
    have hlow : ((jsRound (((p * parts / L : ℕ) : ℚ) * ((L : ℚ) / (parts : ℚ))) +
        jsRound ((L : ℚ) / (parts : ℚ)) : ℤ) : ℚ) > (p : ℚ) - 1 := by
      push_cast
      linarith
    have hfin : (p : ℤ) - 1 < jsRound (((p * parts / L : ℕ) : ℚ) * ((L : ℚ) / (parts : ℚ))) +
        jsRound ((L : ℚ) / (parts : ℚ)) := by exact_mod_cast hlow
    omega

/-- Claim C8: for all dimensions and grid shapes at least 1,
createGridForDimensions yields confidence 1 and exactly rows * cols cells
in row-major order, the cell at (row, col) being the rounded rectangle
(round(col*w/cols), round(row*h/rows), round(w/cols), round(h/rows)). -/
theorem claim_C8 (w h rows cols : ℕ) (hw : 1 ≤ w) (hh : 1 ≤ h)
    (hrows : 1 ≤ rows) (hcols : 1 ≤ cols) :
    (createGridForDimensions w h rows cols).confidence = 1 ∧
    (createGridForDimensions w h rows cols).cells.length = rows * cols ∧
    ∀ row col : ℕ, row < rows → col < cols →
      (createGridForDimensions w h rows cols).cells.getD (row * cols + col) default =
        { x := jsRound ((col : ℚ) * ((w : ℚ) / (cols : ℚ)))
          y := jsRound ((row : ℚ) * ((h : ℚ) / (rows : ℚ)))
          width := jsRound ((w : ℚ) / (cols : ℚ))
          height := jsRound ((h : ℚ) / (rows : ℚ)) } := by
  refine ⟨rfl, ?_, ?_⟩
  · rw [createGridForDimensions_cells, List.length_map, List.length_range]
  · intro row col hrow hcol
    have hidx : row * cols + col < rows * cols := by
      have h1 : row * cols + col < (row + 1) * cols := by
        rw [add_mul, one_mul]
        omega
      have h2 : (row + 1) * cols ≤ rows * cols := Nat.mul_le_mul_right _ (by omega)
      omega
    rw [createGridForDimensions_cells,
      List.getD_eq_getElem _ _ (by simpa using hidx), List.getElem_map, List.getElem_range]
    have hc0 : 0 < cols := hcols
    have hdiv : (row * cols + col) / cols = row := by
      rw [Nat.add_comm, Nat.mul_comm, Nat.add_mul_div_left _ _ hc0,
        Nat.div_eq_of_lt hcol]
      omega
    have hmod : (row * cols + col) % cols = col := by
      rw [Nat.add_comm, Nat.mul_comm, Nat.add_mul_mod_self_left, Nat.mod_eq_of_lt hcol]
    rw [hdiv, hmod, gridCellAt]

/-- Claim C3: given a decoded pixel buffer, the gutter detector returns
none exactly when one of the two axes retains zero content intervals,
content intervals being maximal runs of non-gap positions kept only when
their size exceeds 5% of the axis length, and a position being a gap when
its average brightness is below 30. -/
theorem claim_C3 (img : PixelImage) :
    detectGridWithGutters img = none ↔
      findIntervals img.height (isRowGap img) = [] ∨
        findIntervals img.width (isColumnGap img) = [] := by
  constructor
  · intro hnone
    by_cases hc : (gutterRowIntervals img).length = 0 ∨ (gutterColIntervals img).length = 0
    · rcases hc with hc | hc
      · exact Or.inl (List.length_eq_zero.mp hc)
      · exact Or.inr (List.length_eq_zero.mp hc)
    · rw [detectGridWithGutters, if_neg hc] at hnone
      exact absurd hnone (by simp)
  · intro hemp
    rw [detectGridWithGutters, if_pos]
    rcases hemp with hc | hc
    · exact Or.inl (by rw [gutterRowIntervals, hc]; rfl)
    · exact Or.inr (by rw [gutterColIntervals, hc]; rfl)

/-- Claim C2: the orchestrator uses the geometric detector's grid exactly
when the gutter detector returns none or fewer than 2 filtered cells, uses
the gutter grid unchanged otherwise, and always splits one output image
per cell of the chosen grid in cell order. -/
theorem claim_C2 (img : PixelImage) :
    (detectGridWithGutters img = none →
      detectAndSplitGrid img =
        (detectGrid img, (detectGrid img).cells.map (cropCell img))) ∧
    (∀ g, detectGridWithGutters img = some g → g.cells.length < 2 →
      detectAndSplitGrid img =
        (detectGrid img, (detectGrid img).cells.map (cropCell img))) ∧
    (∀ g, detectGridWithGutters img = some g → 2 ≤ g.cells.length →
      detectAndSplitGrid img = (g, g.cells.map (cropCell img))) := by
  refine ⟨?_, ?_, ?_⟩
  · intro hno
    simp [detectAndSplitGrid, hno, splitImage]
  · intro g hg hlen
    simp [detectAndSplitGrid, hg, hlen, splitImage]
  · intro g hg hlen
    simp [detectAndSplitGrid, hg, Nat.not_lt.mpr hlen, splitImage]

/-- When both axes retain intervals, the gutter detector succeeds with the
pre-filter interval counts, the filtered cells and confidence 0.95. -/
theorem detectGridWithGutters_eq_some (img : PixelImage)
    (h1 : gutterRowIntervals img ≠ []) (h2 : gutterColIntervals img ≠ []) :
    detectGridWithGutters img =
      some { rows := (gutterRowIntervals img).length
             cols := (gutterColIntervals img).length
             cells := gutterValidCells img
             confidence := 0.95 } := by
  rw [detectGridWithGutters, if_neg]
  rintro (hc | hc)
  · exact h1 (List.length_eq_zero.mp hc)
  · exact h2 (List.length_eq_zero.mp hc)

/-- Claim C4: on success the gutter detector returns exactly the row-major
interval cross-product filtered to cells whose area strictly exceeds half
the median area (median = entry at floor(n/2) of the ascending sort of all
areas), with rows/cols the pre-filter interval counts and confidence 0.95. -/
theorem claim_C4 (img : PixelImage)
    (h1 : gutterRowIntervals img ≠ []) (h2 : gutterColIntervals img ≠ []) :
    detectGridWithGutters img =
      some { rows := (gutterRowIntervals img).length
             cols := (gutterColIntervals img).length
             cells := gutterValidCells img
             confidence := 0.95 } ∧
    gutterValidCells img = (gutterRawCells img).filter (fun c =>
      ((c.width * c.height : ℤ) : ℚ) >
        (((gutterSortedAreas img).getD ((gutterSortedAreas img).length / 2) 0 : ℤ) : ℚ) * 0.5) ∧
    gutterSortedAreas img =
      ((gutterRawCells img).map fun c => c.width * c.height).mergeSort (fun a b => a ≤ b) ∧
    gutterRawCells img = (gutterRowIntervals img).flatMap fun rowIv =>
      (gutterColIntervals img).map fun colIv =>
        { x := (colIv.start : ℤ), y := (rowIv.start : ℤ),
          width := (colIv.size : ℤ), height := (rowIv.size : ℤ) } :=
  ⟨detectGridWithGutters_eq_some img h1 h2, rfl, rfl, rfl⟩

/-- Every cross-product cell of the gutter detector satisfies the full
bounds invariant. -/
theorem gutter_cell_bounds (img : PixelImage) :
    ∀ c ∈ gutterRawCells img,
      c.x + c.width ≤ (img.width : ℤ) ∧ c.y + c.height ≤ (img.height : ℤ) ∧
        0 < c.width ∧ 0 < c.height := by
  intro c hc
  rw [gutterRawCells] at hc
  simp only [List.mem_flatMap, List.mem_map] at hc
  obtain ⟨rowIv, hriv, colIv, hciv, rfl⟩ := hc
  obtain ⟨hr1, hr2, -⟩ := findIntervals_bounds img.height (isRowGap img) rowIv hriv
  obtain ⟨hc1, hc2, -⟩ := findIntervals_bounds img.width (isColumnGap img) colIv hciv
  dsimp only
  refine ⟨?_, ?_, ?_, ?_⟩
  · exact_mod_cast hc1
  · exact_mod_cast hr1
  · exact_mod_cast hc2
  · exact_mod_cast hr2

/-- Claim C1, amended: every gutter cross-product cell satisfies the full
bounds invariant; the regular partition's cells satisfy the bounds only up
to one pixel of overshoot, with positive sizes exactly when the part count
does not exceed twice the axis length. -/
theorem claim_C1_amended :
    (∀ img : PixelImage, ∀ c ∈ gutterRawCells img,
      c.x + c.width ≤ (img.width : ℤ) ∧ c.y + c.height ≤ (img.height : ℤ) ∧
        0 < c.width ∧ 0 < c.height) ∧
    (∀ w h rows cols : ℕ, 1 ≤ w → 1 ≤ h → 1 ≤ rows → 1 ≤ cols →
      ∀ c ∈ (createGridForDimensions w h rows cols).cells,
        c.x + c.width ≤ (w : ℤ) + 1 ∧ c.y + c.height ≤ (h : ℤ) + 1 ∧
          0 ≤ c.width ∧ 0 ≤ c.height ∧
          (cols ≤ 2 * w → 0 < c.width) ∧ (rows ≤ 2 * h → 0 < c.height)) := by
  constructor
  · exact gutter_cell_bounds
  · intro w h rows cols hw hh hrows hcols c hc
    rw [mem_createGridForDimensions_cells] at hc
    obtain ⟨row, hrow, col, hcol, rfl⟩ := hc
    have hcq : (0 : ℚ) < (cols : ℚ) := by exact_mod_cast hcols
    have hrq : (0 : ℚ) < (rows : ℚ) := by exact_mod_cast hrows
    refine ⟨regular_cell_bound w cols col hw hcols hcol,
      regular_cell_bound h rows row hh hrows hrow, ?_, ?_, ?_, ?_⟩
    · exact jsRound_nonneg (by positivity)
    · exact jsRound_nonneg (by positivity)
    · intro hcw
      refine jsRound_pos ?_
      rw [div_le_div_iff₀ (by norm_num) hcq]
      exact_mod_cast (by omega : (1 : ℕ) * cols ≤ w * 2)
    · intro hch
      refine jsRound_pos ?_
      rw [div_le_div_iff₀ (by norm_num) hrq]
      exact_mod_cast (by omega : (1 : ℕ) * rows ≤ h * 2)

/-- Claim C1 fails as stated: at image 3 x 1 split 3 x 2, the cell at
(row 0, col 1) is (2, 0, 2, 0), so x + width = 4 exceeds the width 3 and
the cell height is 0. -/
theorem claim_C1_counterexample :
    ¬ ∀ c ∈ (createGridForDimensions 3 1 3 2).cells,
        c.x + c.width ≤ (3 : ℤ) ∧ c.y + c.height ≤ (1 : ℤ) ∧
          0 < c.width ∧ 0 < c.height := by
  intro hall
  have hmem : gridCellAt 3 1 3 2 0 1 ∈ (createGridForDimensions 3 1 3 2).cells :=
    mem_createGridForDimensions_cells.mpr ⟨0, by norm_num, 1, by norm_num, rfl⟩
  have hval : gridCellAt 3 1 3 2 0 1 = { x := 2, y := 0, width := 2, height := 0 } := by
    rw [gridCellAt]
    simp only [GridCell.mk.injEq, jsRound]
    norm_num
  have hbad := hall _ hmem
  rw [hval] at hbad
  obtain ⟨hb, -, -, -⟩ := hbad
  norm_num at hb

/-- Claim C9: the regular partition covers the whole image: every pixel
position lies inside some cell up to the cell's rounded right/bottom edge,
and no cell overshoots the image edge by more than one pixel. -/
theorem claim_C9 (w h rows cols : ℕ) (hw : 1 ≤ w) (hh : 1 ≤ h)
    (hrows : 1 ≤ rows) (hcols : 1 ≤ cols) :
    (∀ px py : ℕ, px < w → py < h →
      ∃ c ∈ (createGridForDimensions w h rows cols).cells,
        c.x ≤ (px : ℤ) ∧ (px : ℤ) ≤ c.x + c.width ∧
          c.y ≤ (py : ℤ) ∧ (py : ℤ) ≤ c.y + c.height) ∧
    (∀ c ∈ (createGridForDimensions w h rows cols).cells,
      c.x + c.width ≤ (w : ℤ) + 1 ∧ c.y + c.height ≤ (h : ℤ) + 1) := by
  constructor
  · intro px py hx hy
    obtain ⟨kx, hkx, hx1, hx2⟩ := axis_cover w cols px hw hcols hx
    obtain ⟨ky, hky, hy1, hy2⟩ := axis_cover h rows py hh hrows hy
    exact ⟨gridCellAt w h rows cols ky kx,
      mem_createGridForDimensions_cells.mpr ⟨ky, hky, kx, hkx, rfl⟩,
      hx1, hx2, hy1, hy2⟩
  · intro c hc
    rw [mem_createGridForDimensions_cells] at hc
    obtain ⟨row, hrow, col, hcol, rfl⟩ := hc
    exact ⟨regular_cell_bound w cols col hw hcols hcol,
      regular_cell_bound h rows row hh hrows hrow⟩

theorem COMMON_ASPECT_RATIOS_pos : ∀ c ∈ COMMON_ASPECT_RATIOS, (0 : ℚ) < c := by
  intro c hc
  simp only [COMMON_ASPECT_RATIOS, List.mem_cons, List.not_mem_nil, or_false] at hc
  rcases hc with rfl | rfl | rfl | rfl | rfl | rfl | rfl | rfl | rfl <;> norm_num

/-- The conditional larger-over-smaller quotient of the source equals the
symmetric maximum form, for positive inputs. -/
theorem aspectDistances_eq (r : ℚ) (hr : 0 < r) :
    aspectDistances r = COMMON_ASPECT_RATIOS.map fun c => max (r / c) (c / r) - 1 := by
  rw [aspectDistances]
  refine List.map_congr_left ?_
  intro c hc
  have hc0 := COMMON_ASPECT_RATIOS_pos c hc
  by_cases hlt : c < r
  · rw [if_pos hlt]
    congr 1
    rw [max_eq_left]
    have h1 : c / r < 1 := (div_lt_one hr).mpr hlt
    have h2 : 1 < r / c := (one_lt_div hc0).mpr hlt
    linarith
  · rw [if_neg hlt]
    congr 1
    rw [max_eq_right]
    push_neg at hlt
    have h1 : r / c ≤ 1 := (div_le_one hc0).mpr hlt
    have h2 : 1 ≤ c / r := (one_le_div hr).mpr hlt
    linarith

/-- Claim C7: for every positive ratio, the aspect scorer returns
exp(-3 d) where d is the least symmetric multiplicative distance
max(r/c, c/r) - 1 over the fixed canonical list; hence the score lies in
(0, 1] and equals exactly 1 on every canonical ratio. -/
theorem claim_C7 (r : ℚ) (hr : 0 < r) :
    (∃ d : ℚ, (∀ c ∈ COMMON_ASPECT_RATIOS, d ≤ max (r / c) (c / r) - 1) ∧
        (∃ c ∈ COMMON_ASPECT_RATIOS, d = max (r / c) (c / r) - 1) ∧
        aspectRatioScore r = Real.exp (-3 * (d : ℝ))) ∧
      0 < aspectRatioScore r ∧ aspectRatioScore r ≤ 1 ∧
      (r ∈ COMMON_ASPECT_RATIOS → aspectRatioScore r = 1) := by
  haveI : Std.Antisymm (fun x y : ℚ => x ≤ y) := ⟨fun h1 h2 => le_antisymm h1 h2⟩
  have hne : aspectDistances r ≠ [] := by
    simp [aspectDistances, COMMON_ASPECT_RATIOS]
  obtain ⟨d, hd⟩ : ∃ d, (aspectDistances r).min? = some d := by
    cases hm : (aspectDistances r).min? with
    | none => exact absurd (List.min?_eq_none_iff.mp hm) hne
    | some d => exact ⟨d, rfl⟩
  obtain ⟨hdmem, hdle⟩ := (List.min?_eq_some_iff (le_refl)
    (fun a b => min_choice a b) (fun a b c => le_min_iff)).mp hd
  rw [aspectDistances_eq r hr] at hdmem hdle
  obtain ⟨c0, hc0mem, hc0eq⟩ := List.mem_map.mp hdmem
  have hscore : aspectRatioScore r = Real.exp (-(d : ℝ) * 3) := by
    rw [aspectRatioScore, hd]
  have hd0 : 0 ≤ d := by
    rw [← hc0eq]
    have hc0pos := COMMON_ASPECT_RATIOS_pos c0 hc0mem
    rcases le_total r c0 with hle | hle
    · have h1 : 1 ≤ c0 / r := (one_le_div hr).mpr hle
      have h2 := le_max_right (r / c0) (c0 / r)
      linarith
    · have h1 : 1 ≤ r / c0 := (one_le_div hc0pos).mpr hle
      have h2 := le_max_left (r / c0) (c0 / r)
      linarith
  refine ⟨⟨d, ?_, ⟨c0, hc0mem, hc0eq.symm⟩, ?_⟩, ?_, ?_, ?_⟩
  · intro c hc
    exact hdle _ (List.mem_map.mpr ⟨c, hc, rfl⟩)
  · rw [hscore]
    congr 1
    ring
  · rw [hscore]
    exact Real.exp_pos _
  · rw [hscore]
    apply Real.exp_le_one_iff.mpr
    have hd0R : (0 : ℝ) ≤ (d : ℝ) := by exact_mod_cast hd0
    linarith
  · intro hrmem
    have hdle0 : d ≤ 0 := by
      have := hdle _ (List.mem_map.mpr ⟨r, hrmem, rfl⟩)
      rw [div_self (ne_of_gt hr), max_self] at this
      linarith
    have hdz : d = 0 := le_antisymm hdle0 hd0
    rw [hscore, hdz]
    norm_num

/-- Claim C5 fails on the code: at this input the average capped ratio is
0, and the source returns min((0 - 1) / 2, 1) = -1/2 because the lower
clamp at 0 promised by the spec (and by the function's own doc comment,
which says the score is normalized to 0..1) is missing. -/
theorem claim_C5_code_bug :
    scoreGridByEdges 1 2 12 4 [0, 60, 0, 0, 0, 0, 0, 0, 0, 0, 0, 0] [0, 0, 0, 0] =
      -(1/2) ∧
    scoreGridByEdges 1 2 12 4 [0, 60, 0, 0, 0, 0, 0, 0, 0, 0, 0, 0] [0, 0, 0, 0] < 0 := by
  have heval : scoreGridByEdges 1 2 12 4 [0, 60, 0, 0, 0, 0, 0, 0, 0, 0, 0, 0]
      [0, 0, 0, 0] = -(1/2) := by
    have hwin : searchWindowFor 1 2 12 4 = 3 := by
      rw [searchWindowFor]
      have hmin : min ((12 : ℚ) / (2 : ℚ)) ((4 : ℚ) / (1 : ℚ)) = 4 := by
        rw [min_def]
        norm_num
      norm_num [hmin]
    have hbase : (([0, 60, 0, 0, 0, 0, 0, 0, 0, 0, 0, 0] : List ℚ).sum /
        (([0, 60, 0, 0, 0, 0, 0, 0, 0, 0, 0, 0] : List ℚ).length : ℚ)) = 5 := by
      norm_num
    have hjs : jsRound (((0 + 1 : ℕ) : ℚ) * (((12 : ℕ) : ℚ) / ((2 : ℕ) : ℚ))) = 6 := by
      rw [jsRound]
      norm_num
    have hmax : maxStrengthAt [0, 60, 0, 0, 0, 0, 0, 0, 0, 0, 0, 0] 12 6 3 = 0 := by
      decide
    have hvR : axisRatios [0, 60, 0, 0, 0, 0, 0, 0, 0, 0, 0, 0] 5 12 2 3 = [0] := by
      rw [axisRatios]
      rw [show (2 - 1 : ℕ) = 1 from rfl, show List.range 1 = [0] from rfl]
      simp only [List.map_cons, List.map_nil]
      rw [hjs, hmax]
      norm_num
    have hhR : axisRatios [0, 0, 0, 0]
        (([0, 0, 0, 0] : List ℚ).sum / (([0, 0, 0, 0] : List ℚ).length : ℚ)) 4 1 3 = [] := by
      rw [axisRatios]
      rfl
    simp only [scoreGridByEdges]
    rw [hbase, hwin, hvR, hhR]
    norm_num [min_def]
  exact ⟨heval, by rw [heval]; norm_num⟩

theorem candidatePairs_eq : candidatePairs =
    [(1, 2), (1, 3), (1, 4), (1, 5), (1, 6),
     (2, 1), (2, 2), (2, 3), (2, 4), (2, 5), (2, 6),
     (3, 1), (3, 2), (3, 3), (3, 4), (3, 5), (3, 6),
     (4, 1), (4, 2), (4, 3), (4, 4), (4, 5), (4, 6),
     (5, 1), (5, 2), (5, 3), (5, 4), (5, 5), (5, 6),
     (6, 1), (6, 2), (6, 3), (6, 4), (6, 5), (6, 6)] := by
  decide

/-- Claim C6: getGridCandidates always returns exactly 35 candidates, one
per (rows, cols) pair in [1,6] x [1,6] minus (1,1), sorted non-increasing
by score, each score the stated weighted sum with the stated cell-count
and grid-symmetry terms. -/
theorem claim_C6 (width height : ℚ) (hw : 0 < width) (hh : 0 < height) :
    (getGridCandidates width height).length = 35 ∧
    ((getGridCandidates width height).map fun cand => (cand.rows, cand.cols)).Perm
      [(1, 2), (1, 3), (1, 4), (1, 5), (1, 6),
       (2, 1), (2, 2), (2, 3), (2, 4), (2, 5), (2, 6),
       (3, 1), (3, 2), (3, 3), (3, 4), (3, 5), (3, 6),
       (4, 1), (4, 2), (4, 3), (4, 4), (4, 5), (4, 6),
       (5, 1), (5, 2), (5, 3), (5, 4), (5, 5), (5, 6),
       (6, 1), (6, 2), (6, 3), (6, 4), (6, 5), (6, 6)] ∧
    List.Sorted (fun a b : GridCandidate => b.score ≤ a.score)
      (getGridCandidates width height) ∧
    ∀ cand ∈ getGridCandidates width height,
      cand.score = 0.55 * aspectRatioScore cand.cellAspectRatio +
        0.25 * layoutScore width height cand.rows cand.cols +
        0.10 * (if cand.rows * cand.cols ≤ 6 then (1 : ℝ)
          else Real.exp (-0.15 * (((cand.rows * cand.cols : ℕ) : ℝ) - 6))) +
        0.10 * (1 - |(cand.rows : ℝ) - (cand.cols : ℝ)| /
          max (cand.rows : ℝ) (cand.cols : ℝ)) := by
  refine ⟨?_, ?_, ?_, ?_⟩
  · rw [getGridCandidates, List.length_mergeSort, List.length_map, candidatePairs_eq]
    rfl
  · have hperm : (getGridCandidates width height).Perm
        (candidatePairs.map fun p => candidateFor width height p.1 p.2) :=
      List.mergeSort_perm _ _
    have hmapped := hperm.map fun cand : GridCandidate => (cand.rows, cand.cols)
    rw [List.map_map] at hmapped
    have hid : candidatePairs.map
        ((fun cand : GridCandidate => (cand.rows, cand.cols)) ∘
          fun p => candidateFor width height p.1 p.2) = candidatePairs := by
      have hpt : ∀ p ∈ candidatePairs,
          ((fun cand : GridCandidate => (cand.rows, cand.cols)) ∘
            fun p : ℕ × ℕ => candidateFor width height p.1 p.2) p = id p :=
        fun p _ => rfl
      rw [List.map_congr_left hpt, List.map_id]
    rw [hid, candidatePairs_eq] at hmapped
    exact hmapped
  · have htrans : ∀ a b c : GridCandidate,
        (fun a b : GridCandidate => decide (b.score ≤ a.score)) a b = true →
        (fun a b : GridCandidate => decide (b.score ≤ a.score)) b c = true →
        (fun a b : GridCandidate => decide (b.score ≤ a.score)) a c = true := by
      intro a b c hab hbc
      simp only [decide_eq_true_eq] at hab hbc ⊢
      exact le_trans hbc hab
    have htotal : ∀ a b : GridCandidate,
        ((fun a b : GridCandidate => decide (b.score ≤ a.score)) a b ||
          (fun a b : GridCandidate => decide (b.score ≤ a.score)) b a) = true := by
      intro a b
      simp only [Bool.or_eq_true, decide_eq_true_eq]
      exact le_total b.score a.score
    have hs := @List.sorted_mergeSort GridCandidate
      (fun a b : GridCandidate => decide (b.score ≤ a.score)) htrans htotal
      (candidatePairs.map fun p => candidateFor width height p.1 p.2)
    rw [getGridCandidates]
    exact hs.imp (by simp)
  · intro cand hcand
    rw [getGridCandidates] at hcand
    have hmem : cand ∈ candidatePairs.map fun p => candidateFor width height p.1 p.2 :=
      (List.mergeSort_perm _ _).mem_iff.mp hcand
    obtain ⟨p, hp, rfl⟩ := List.mem_map.mp hmem
    have hcount : cellCountScore p.1 p.2 =
        (if p.1 * p.2 ≤ 6 then (1 : ℝ) else Real.exp (-0.15 * (((p.1 * p.2 : ℕ) : ℝ) - 6))) := by
      rw [cellCountScore]
      split_ifs with hif
      · rfl
      · congr 1
        ring
    have hsym : ((gridSymmetry p.1 p.2 : ℚ) : ℝ) =
        1 - |(p.1 : ℝ) - (p.2 : ℝ)| / max (p.1 : ℝ) (p.2 : ℝ) := by
      rw [gridSymmetry]
      push_cast [Rat.cast_max]
      ring
    simp only [candidateFor]
    rw [hcount, hsym]
    ring

theorem gutterRawCells_ne_nil (img : PixelImage)
    (h1 : gutterRowIntervals img ≠ []) (h2 : gutterColIntervals img ≠ []) :
    gutterRawCells img ≠ [] := by
  obtain ⟨rowIv, hriv⟩ := List.exists_mem_of_ne_nil _ h1
  obtain ⟨colIv, hciv⟩ := List.exists_mem_of_ne_nil _ h2
  have hmem : GridCell.mk (colIv.start : ℤ) (rowIv.start : ℤ)
      (colIv.size : ℤ) (rowIv.size : ℤ) ∈ gutterRawCells img := by
    rw [gutterRawCells]
    exact List.mem_flatMap.mpr ⟨rowIv, hriv, List.mem_map.mpr ⟨colIv, hciv, rfl⟩⟩
  exact List.ne_nil_of_mem hmem

theorem gutterRawCells_area_pos (img : PixelImage) :
    ∀ c ∈ gutterRawCells img, 0 < c.width * c.height := by
  intro c hc
  obtain ⟨-, -, hw, hh⟩ := gutter_cell_bounds img c hc
  exact mul_pos hw hh

theorem gutterSortedAreas_perm (img : PixelImage) :
    (gutterSortedAreas img).Perm ((gutterRawCells img).map fun c => c.width * c.height) :=
  List.mergeSort_perm _ _

theorem gutterSortedAreas_length (img : PixelImage) :
    (gutterSortedAreas img).length = (gutterRawCells img).length := by
  rw [gutterSortedAreas, List.length_mergeSort, List.length_map]

theorem gutterSortedAreas_sorted (img : PixelImage) :
    List.Sorted (fun a b : ℤ => a ≤ b) (gutterSortedAreas img) := by
  have hs := @List.sorted_mergeSort ℤ (fun a b : ℤ => decide (a ≤ b))
    (fun a b c hab hbc => by
      simp only [decide_eq_true_eq] at hab hbc ⊢
      exact le_trans hab hbc)
    (fun a b => by
      simp only [Bool.or_eq_true, decide_eq_true_eq]
      exact le_total a b)
    ((gutterRawCells img).map fun c => c.width * c.height)
  rw [gutterSortedAreas]
  exact hs.imp (by simp)

theorem gutterMedianArea_getElem (img : PixelImage)
    (hpos : 0 < (gutterSortedAreas img).length) :
    gutterMedianArea img =
      (gutterSortedAreas img).get
        ⟨(gutterSortedAreas img).length / 2, Nat.div_lt_self hpos (by norm_num)⟩ := by
  rw [gutterMedianArea,
    List.getD_eq_getElem _ _ (Nat.div_lt_self hpos (by norm_num))]
  rfl

theorem gutterMedianArea_mem (img : PixelImage)
    (hne : gutterRawCells img ≠ []) :
    gutterMedianArea img ∈ gutterSortedAreas img := by
  have hpos : 0 < (gutterSortedAreas img).length := by
    rw [gutterSortedAreas_length]
    exact List.length_pos.mpr hne
  rw [gutterMedianArea_getElem img hpos]
  exact List.get_mem _ _ _

/-- Elements at or past the median index of the sorted area list are at
least the median. -/
theorem gutterSortedAreas_drop_ge (img : PixelImage)
    (hpos : 0 < (gutterSortedAreas img).length) :
    ∀ a ∈ (gutterSortedAreas img).drop ((gutterSortedAreas img).length / 2),
      gutterMedianArea img ≤ a := by
  intro a ha
  obtain ⟨j, hj, rfl⟩ := List.mem_iff_getElem.mp ha
  rw [List.getElem_drop]
  rw [gutterMedianArea_getElem img hpos]
  have hjlen : (gutterSortedAreas img).length / 2 + j < (gutterSortedAreas img).length := by
    have := hj
    rw [List.length_drop] at this
    omega
  rcases Nat.eq_zero_or_pos j with rfl | hjpos
  · simp [List.get_eq_getElem]
  · have hlt : (gutterSortedAreas img).length / 2 <
        (gutterSortedAreas img).length / 2 + j := by omega
    exact (List.pairwise_iff_getElem.mp (gutterSortedAreas_sorted img))
      _ _ _ hjlen hlt

/-- Claim C10: whenever the gutter detector succeeds, the median cell area
is positive, every raw cell of at least median area survives the filter
(in particular some cell of exactly median area), at least half of the raw
cells are kept, and the filtered cell list is non-empty. -/
theorem claim_C10 (img : PixelImage)
    (h1 : gutterRowIntervals img ≠ []) (h2 : gutterColIntervals img ≠ []) :
    0 < gutterMedianArea img ∧
    (∀ c ∈ gutterRawCells img, gutterMedianArea img ≤ c.width * c.height →
      c ∈ gutterValidCells img) ∧
    (∃ c ∈ gutterValidCells img, c.width * c.height = gutterMedianArea img) ∧
    (gutterRawCells img).length ≤ 2 * (gutterValidCells img).length ∧
    gutterValidCells img ≠ [] := by
  have hne := gutterRawCells_ne_nil img h1 h2
  have hlenpos : 0 < (gutterSortedAreas img).length := by
    rw [gutterSortedAreas_length]
    exact List.length_pos.mpr hne
  obtain ⟨c0, hc0, harea0⟩ : ∃ c ∈ gutterRawCells img,
      c.width * c.height = gutterMedianArea img := by
    have hmem := gutterMedianArea_mem img hne
    have := (gutterSortedAreas_perm img).mem_iff.mp hmem
    obtain ⟨c, hc, heq⟩ := List.mem_map.mp this
    exact ⟨c, hc, heq⟩
  have hmedpos : 0 < gutterMedianArea img := by
    rw [← harea0]
    exact gutterRawCells_area_pos img c0 hc0
  have hpass : ∀ c ∈ gutterRawCells img,
      gutterMedianArea img ≤ c.width * c.height → c ∈ gutterValidCells img := by
    intro c hc hle
    rw [gutterValidCells, List.mem_filter]
    refine ⟨hc, ?_⟩
    rw [decide_eq_true_eq]
    have hleq : ((gutterMedianArea img : ℤ) : ℚ) ≤ ((c.width * c.height : ℤ) : ℚ) := by
      exact_mod_cast hle
    have hmq : (0 : ℚ) < ((gutterMedianArea img : ℤ) : ℚ) := by exact_mod_cast hmedpos
    linarith
  have hc0valid : c0 ∈ gutterValidCells img := hpass c0 hc0 (le_of_eq harea0.symm)
  refine ⟨hmedpos, hpass, ⟨c0, hc0valid, harea0⟩, ?_, List.ne_nil_of_mem hc0valid⟩
  -- at least half of the raw cells survive the area filter
  have hvalid_len : (gutterValidCells img).length =
      ((gutterRawCells img).map fun c => c.width * c.height).countP
        (fun a : ℤ => decide ((a : ℚ) > ((gutterMedianArea img : ℤ) : ℚ) * 0.5)) := by
    rw [gutterValidCells, ← List.countP_eq_length_filter, List.countP_map]
    rfl
  have hmono : ((gutterRawCells img).map fun c => c.width * c.height).countP
        (fun a => decide (gutterMedianArea img ≤ a)) ≤
      ((gutterRawCells img).map fun c => c.width * c.height).countP
        (fun a : ℤ => decide ((a : ℚ) > ((gutterMedianArea img : ℤ) : ℚ) * 0.5)) := by
    refine List.countP_mono_left ?_
    intro a _ haq
    rw [decide_eq_true_eq] at haq ⊢
    have h1q : ((gutterMedianArea img : ℤ) : ℚ) ≤ (a : ℚ) := by exact_mod_cast haq
    have h2q : (0 : ℚ) < ((gutterMedianArea img : ℤ) : ℚ) := by exact_mod_cast hmedpos
    linarith
  have hperm_count : ((gutterRawCells img).map fun c => c.width * c.height).countP
        (fun a => decide (gutterMedianArea img ≤ a)) =
      (gutterSortedAreas img).countP (fun a => decide (gutterMedianArea img ≤ a)) :=
    ((gutterSortedAreas_perm img).countP_eq _).symm
  have hdrop_count : ((gutterSortedAreas img).drop
        ((gutterSortedAreas img).length / 2)).countP
        (fun a => decide (gutterMedianArea img ≤ a)) =
      ((gutterSortedAreas img).drop ((gutterSortedAreas img).length / 2)).length := by
    rw [List.countP_eq_length]
    intro a ha
    rw [decide_eq_true_eq]
    exact gutterSortedAreas_drop_ge img hlenpos a ha
  have hsplit : (gutterSortedAreas img).countP
        (fun a => decide (gutterMedianArea img ≤ a)) ≥
      ((gutterSortedAreas img).drop ((gutterSortedAreas img).length / 2)).length := by
    conv_lhs => rw [← List.take_append_drop ((gutterSortedAreas img).length / 2)
      (gutterSortedAreas img)]
    rw [List.countP_append, hdrop_count]
    omega
  have hdrop_len : ((gutterSortedAreas img).drop
        ((gutterSortedAreas img).length / 2)).length =
      (gutterSortedAreas img).length - (gutterSortedAreas img).length / 2 :=
    List.length_drop _ _
  have hn : (gutterSortedAreas img).length = (gutterRawCells img).length :=
    gutterSortedAreas_length img
  have hmaplen : ((gutterRawCells img).map fun c => c.width * c.height).length =
      (gutterRawCells img).length := List.length_map _ _
  omega

/-- A concrete 2 x 2 all-white image, used to exercise the theorems above
at a concrete input. -/
def whiteImg : PixelImage :=
  { width := 2, height := 2
    red := fun _ _ => 255, green := fun _ _ => 255, blue := fun _ _ => 255 }

theorem colSum_whiteImg (x : ℕ) : colSum whiteImg x = 510 := by
  rw [colSum, show whiteImg.height = 2 from rfl, show List.range 2 = [0, 1] from rfl]
  norm_num [brightness, whiteImg]

theorem rowSum_whiteImg (y : ℕ) : rowSum whiteImg y = 510 := by
  rw [rowSum, show whiteImg.width = 2 from rfl, show List.range 2 = [0, 1] from rfl]
  norm_num [brightness, whiteImg]

theorem not_isColumnGap_whiteImg (x : ℕ) : ¬ isColumnGap whiteImg x := by
  rw [isColumnGap, colSum_whiteImg]
  norm_num [whiteImg]

theorem not_isRowGap_whiteImg (y : ℕ) : ¬ isRowGap whiteImg y := by
  rw [isRowGap, rowSum_whiteImg]
  norm_num [whiteImg]

theorem intervalScan_whiteImg_col :
    intervalScan (isColumnGap whiteImg) 2 = (some 0, []) := by
  rw [intervalScan, show List.range 2 = [0, 1] from rfl]
  simp only [List.foldl_cons, List.foldl_nil]
  rw [show intervalStep (isColumnGap whiteImg) (none, []) 0 = (some 0, []) from by
    simp only [intervalStep]
    rw [if_neg (not_isColumnGap_whiteImg 0)]]
  simp only [intervalStep]
  rw [if_neg (not_isColumnGap_whiteImg 1)]

theorem intervalScan_whiteImg_row :
    intervalScan (isRowGap whiteImg) 2 = (some 0, []) := by
  rw [intervalScan, show List.range 2 = [0, 1] from rfl]
  simp only [List.foldl_cons, List.foldl_nil]
  rw [show intervalStep (isRowGap whiteImg) (none, []) 0 = (some 0, []) from by
    simp only [intervalStep]
    rw [if_neg (not_isRowGap_whiteImg 0)]]
  simp only [intervalStep]
  rw [if_neg (not_isRowGap_whiteImg 1)]

theorem gutterColIntervals_whiteImg :
    gutterColIntervals whiteImg = [{ start := 0, stop := 1, size := 2 }] := by
  rw [gutterColIntervals, show whiteImg.width = 2 from rfl, findIntervals,
    intervalScan_whiteImg_col]
  simp only [finishIntervals, List.nil_append]
  norm_num

theorem gutterRowIntervals_whiteImg :
    gutterRowIntervals whiteImg = [{ start := 0, stop := 1, size := 2 }] := by
  rw [gutterRowIntervals, show whiteImg.height = 2 from rfl, findIntervals,
    intervalScan_whiteImg_row]
  simp only [finishIntervals, List.nil_append]
  norm_num

theorem gutterRowIntervals_whiteImg_ne_nil : gutterRowIntervals whiteImg ≠ [] := by
  rw [gutterRowIntervals_whiteImg]
  exact List.cons_ne_nil _ _

theorem gutterColIntervals_whiteImg_ne_nil : gutterColIntervals whiteImg ≠ [] := by
  rw [gutterColIntervals_whiteImg]
  exact List.cons_ne_nil _ _

theorem claim_C4_witness :
    gutterRowIntervals whiteImg ≠ [] ∧ gutterColIntervals whiteImg ≠ [] ∧
    detectGridWithGutters whiteImg =
      some { rows := (gutterRowIntervals whiteImg).length
             cols := (gutterColIntervals whiteImg).length
             cells := gutterValidCells whiteImg
             confidence := 0.95 } :=
  ⟨gutterRowIntervals_whiteImg_ne_nil, gutterColIntervals_whiteImg_ne_nil,
    (claim_C4 whiteImg gutterRowIntervals_whiteImg_ne_nil
      gutterColIntervals_whiteImg_ne_nil).1⟩

theorem claim_C10_witness :
    gutterRowIntervals whiteImg ≠ [] ∧ gutterColIntervals whiteImg ≠ [] ∧
    0 < gutterMedianArea whiteImg ∧ gutterValidCells whiteImg ≠ [] :=
  ⟨gutterRowIntervals_whiteImg_ne_nil, gutterColIntervals_whiteImg_ne_nil,
    (claim_C10 whiteImg gutterRowIntervals_whiteImg_ne_nil
      gutterColIntervals_whiteImg_ne_nil).1,
    (claim_C10 whiteImg gutterRowIntervals_whiteImg_ne_nil
      gutterColIntervals_whiteImg_ne_nil).2.2.2.2⟩

theorem claim_C6_witness :
    (0 : ℚ) < 3 ∧ (0 : ℚ) < 2 ∧ (getGridCandidates 3 2).length = 35 ∧
    List.Sorted (fun a b : GridCandidate => b.score ≤ a.score) (getGridCandidates 3 2) :=
  ⟨by norm_num, by norm_num,
    (claim_C6 3 2 (by norm_num) (by norm_num)).1,
    (claim_C6 3 2 (by norm_num) (by norm_num)).2.2.1⟩

theorem claim_C7_witness :
    (0 : ℚ) < 1 ∧ 0 < aspectRatioScore 1 ∧ aspectRatioScore 1 ≤ 1 ∧
    ((1 : ℚ) ∈ COMMON_ASPECT_RATIOS → aspectRatioScore 1 = 1) :=
  ⟨by norm_num, (claim_C7 1 (by norm_num)).2.1, (claim_C7 1 (by norm_num)).2.2.1,
    (claim_C7 1 (by norm_num)).2.2.2⟩

theorem claim_C8_witness :
    1 ≤ 4 ∧ 1 ≤ 2 ∧ (createGridForDimensions 4 4 2 2).confidence = 1 ∧
    (createGridForDimensions 4 4 2 2).cells.length = 2 * 2 :=
  ⟨by norm_num, by norm_num,
    (claim_C8 4 4 2 2 (by norm_num) (by norm_num) (by norm_num) (by norm_num)).1,
    (claim_C8 4 4 2 2 (by norm_num) (by norm_num) (by norm_num) (by norm_num)).2.1⟩

theorem claim_C9_witness :
    1 ≤ 4 ∧ 1 ≤ 2 ∧
    ∀ c ∈ (createGridForDimensions 4 4 2 2).cells,
      c.x + c.width ≤ (4 : ℤ) + 1 ∧ c.y + c.height ≤ (4 : ℤ) + 1 :=
  ⟨by norm_num, by norm_num,
    (claim_C9 4 4 2 2 (by norm_num) (by norm_num) (by norm_num) (by norm_num)).2⟩

end GridSplitter
